import Mathlib

/-!
# Verification of the manine perception-to-feedback pipeline

Shallow embedding of the core of the repository:

* `HandTracker` (src/unnamed/part_000): per-frame normalization of raw
  hand-landmark data — confidence / movement-zone filtering, mirrored center,
  exponential smoothing, finite-difference velocity, gesture detection.
* `VisualEffects` particle subsystem and `AudioProcessor` volume / beat
  analysis (src/unnamed/part_001).
* `TherapeuticActivities` engine and the `BilateralCoordination` activity
  (src/modules/therapeuticActivities.js).

JavaScript numbers are modelled as `ℝ` where `Math.sqrt` is involved and as
`ℚ`/`ℤ` where all arithmetic is rational (beat detection, session counters),
so that those parts stay executable.  Canvas drawing, console logging and
UI callbacks are pure side effects on collaborators outside the analysed
state and are omitted; each omission is noted at the definition it concerns.
-/

namespace Manine

/-! ## Hand tracker data model (src/unnamed/part_000) -/

/-- A 3-D landmark point as delivered by MediaPipe (normalized coordinates). -/
@[ext]
structure Pt3 where
  x : ℝ
  y : ℝ
  z : ℝ

/-- The `velocity` field of a hand record: `{x, y, magnitude}`. -/
@[ext]
structure Velocity where
  x : ℝ
  y : ℝ
  magnitude : ℝ

/-- The `gestures` field of a hand record. -/
@[ext]
structure Gestures where
  isPointing : Bool
  isFist : Bool
  isOpen : Bool
  isPinching : Bool

/-- One raw detected hand as handed to `onResults`: the landmark array plus
the MediaPipe handedness classification (`label` is the raw `'Left'`/`'Right'`
string, `score` the confidence). -/
structure RawHand where
  landmarks : List Pt3
  score : ℝ
  label : String

/-- A normalized hand record, as built by `HandTracker.processHandData`.
The `fingers` field of the source is a bundle of aliases into `landmarks`
(entries 4, 8, 12, 16, 20) and is not separately modelled. -/
@[ext]
structure Hand where
  id : String
  label : String
  confidence : ℝ
  landmarks : List Pt3
  center : Pt3
  size : ℝ
  velocity : Velocity
  gestures : Gestures
  timestamp : ℝ

/-- The movement zone: `{x: {min,max}, y: {min,max}}`. -/
structure Zone where
  xmin : ℝ
  xmax : ℝ
  ymin : ℝ
  ymax : ℝ

/-- The recognized tracker settings (`this.settings` of `HandTracker`)
restricted to the fields read by the per-frame path. -/
structure TrackerSettings where
  sensitivity : ℝ
  smoothing : Bool
  movementZone : Zone

/-- Tracker state relevant to one `onResults` invocation: the hand list of the
previously processed frame (`this.currentHands`, which `onResults` moves into
`this.previousHands`), the settings and the two fixed thresholds.
`handHistory` (`maintainHandIdentity`) is write-only bookkeeping never read by
any analysed path and is omitted. -/
structure TrackerState where
  currentHands : List Hand
  settings : TrackerSettings
  smoothingFactor : ℝ
  confidenceThreshold : ℝ

/-- `HandTracker.calculateHandCenter`: average of all landmark coordinates,
x mirrored (`1 - mean x`), z taken from the wrist (landmark 0). -/
noncomputable def calculateHandCenter (landmarks : List Pt3) : Pt3 :=
  { x := 1 - (landmarks.map Pt3.x).sum / landmarks.length
    y := (landmarks.map Pt3.y).sum / landmarks.length
    z := (landmarks.getD 0 ⟨0, 0, 0⟩).z }

/-- `HandTracker.calculateHandSize`: wrist-to-middle-fingertip distance. -/
noncomputable def calculateHandSize (landmarks : List Pt3) : ℝ :=
  let wrist := landmarks.getD 0 ⟨0, 0, 0⟩
  let middleTip := landmarks.getD 12 ⟨0, 0, 0⟩
  Real.sqrt ((middleTip.x - wrist.x) ^ 2 + (middleTip.y - wrist.y) ^ 2)

/-- `HandTracker.processHandData`: build a fresh hand record from raw
landmarks.  The raw MediaPipe label is flipped (`'Left' ↦ 'Right'` and
conversely) to match the mirrored preview; `id` uses the flipped label before
lower-casing, the `label` field after (the `toLowerCase()` call is evaluated
on the only two strings the flip can produce).  Velocity starts at zero and
every gesture flag at `false`. -/
noncomputable def processHandData (raw : RawHand) (index : ℕ) (now : ℝ) : Hand :=
  let label := if raw.label = "Left" then "Right" else "Left"
  { id := label ++ "_" ++ toString index
    label := if raw.label = "Left" then "right" else "left"
    confidence := raw.score
    landmarks := raw.landmarks
    center := calculateHandCenter raw.landmarks
    size := calculateHandSize raw.landmarks
    velocity := ⟨0, 0, 0⟩
    gestures := ⟨false, false, false, false⟩
    timestamp := now }

/-- `HandTracker.isInMovementZone`: inclusive bounds check on the center. -/
def isInMovementZone (zone : Zone) (hand : Hand) : Prop :=
  zone.xmin ≤ hand.center.x ∧ hand.center.x ≤ zone.xmax ∧
    zone.ymin ≤ hand.center.y ∧ hand.center.y ≤ zone.ymax

noncomputable instance (zone : Zone) (hand : Hand) :
    Decidable (isInMovementZone zone hand) := by
  unfold isInMovementZone; infer_instance

/-- `HandTracker.lerp`. -/
noncomputable def lerp (a b t : ℝ) : ℝ := a + (b - a) * t

/-- `HandTracker.smoothHandPositions`, for one current hand: exponential
smoothing of `center.x` and `center.y` against the previous frame's record
with the same label (`previousHands.find`); `center.z` is not touched, and a
hand without a previous match is left as is. -/
noncomputable def smoothHand (previousHands : List Hand) (smoothingFactor : ℝ)
    (hand : Hand) : Hand :=
  match previousHands.find? (fun h => h.label = hand.label) with
  | some prev =>
      { hand with
        center :=
          { x := lerp prev.center.x hand.center.x (1 - smoothingFactor)
            y := lerp prev.center.y hand.center.y (1 - smoothingFactor)
            z := hand.center.z } }
  | none => hand

/-- `HandTracker.calculateHandVelocities`, for one current hand: when a
previous record with the same label exists and the elapsed time is positive,
the velocity is the finite difference of centers over elapsed seconds scaled
by sensitivity; otherwise the velocity field is left untouched. -/
noncomputable def calcHandVelocity (previousHands : List Hand) (sensitivity : ℝ)
    (hand : Hand) : Hand :=
  match previousHands.find? (fun h => h.label = hand.label) with
  | some prev =>
      let dt := (hand.timestamp - prev.timestamp) / 1000
      if dt > 0 then
        let dx := hand.center.x - prev.center.x
        let dy := hand.center.y - prev.center.y
        { hand with
          velocity :=
            { x := dx / dt * sensitivity
              y := dy / dt * sensitivity
              magnitude := Real.sqrt (dx * dx + dy * dy) / dt * sensitivity } }
      else hand
  | none => hand

/-- `HandTracker.isFingerExtended`: fingertip above the PIP joint
(`tip.y < pip.y`, the joint two entries before the tip). -/
noncomputable def isFingerExtended (landmarks : List Pt3) (tipIndex : ℕ) : Bool :=
  decide ((landmarks.getD tipIndex ⟨0, 0, 0⟩).y <
    (landmarks.getD (tipIndex - 2) ⟨0, 0, 0⟩).y)

/-- `HandTracker.isPinching`: thumb-tip-to-index-tip distance below 0.05. -/
noncomputable def isPinchingGesture (landmarks : List Pt3) : Bool :=
  let thumbTip := landmarks.getD 4 ⟨0, 0, 0⟩
  let indexTip := landmarks.getD 8 ⟨0, 0, 0⟩
  decide (Real.sqrt ((thumbTip.x - indexTip.x) ^ 2 +
    (thumbTip.y - indexTip.y) ^ 2) < 0.05)

/-- `HandTracker.detectGestures`, for one hand: pointing / open / fist from
the four non-thumb finger extension flags, pinching from the thumb-index
distance.  Only the `gestures` field is replaced. -/
noncomputable def detectHandGestures (hand : Hand) : Hand :=
  let ext8 := isFingerExtended hand.landmarks 8
  let ext12 := isFingerExtended hand.landmarks 12
  let ext16 := isFingerExtended hand.landmarks 16
  let ext20 := isFingerExtended hand.landmarks 20
  { hand with
    gestures :=
      { isPointing := ext8 && !ext12 && !ext16 && !ext20
        isFist := !ext8 && !ext12 && !ext16 && !ext20
        isOpen := ext8 && ext12 && ext16 && ext20
        isPinching := isPinchingGesture hand.landmarks } }

/-- The filtering loop of `HandTracker.onResults`: walk the raw hands with
their indices, drop those with `score < confidenceThreshold`, build the
record, and keep it only when its center lies in the movement zone. -/
noncomputable def buildFrameHands (s : TrackerState) (raws : List RawHand)
    (now : ℝ) : List Hand :=
  raws.enum.filterMap fun ir =>
    if ir.2.score < s.confidenceThreshold then none
    else
      let hd := processHandData ir.2 ir.1 now
      if isInMovementZone s.settings.movementZone hd then some hd else none

/-- One `HandTracker.onResults` invocation (logging and the
`onHandsDetected` / `onHandLost` callbacks omitted; `maintainHandIdentity`
omitted as write-only): the previous frame's hands become the smoothing /
velocity reference, then filtering, optional smoothing, velocity calculation
and gesture detection run in that order. -/
noncomputable def processFrame (s : TrackerState) (raws : List RawHand)
    (now : ℝ) : TrackerState :=
  let previousHands := s.currentHands
  let cur0 := buildFrameHands s raws now
  let cur1 :=
    if s.settings.smoothing then
      cur0.map (smoothHand previousHands s.smoothingFactor)
    else cur0
  let cur2 := cur1.map (calcHandVelocity previousHands s.settings.sensitivity)
  let cur3 := cur2.map detectHandGestures
  { s with currentHands := cur3 }

/-- The constructor defaults of `HandTracker` that the per-frame path reads:
`smoothingFactor = 0.7`, `confidenceThreshold = 0.7`, sensitivity `1.0`,
smoothing on, movement zone `[0.1, 0.9]²`, no hands yet. -/
noncomputable def initialTrackerState : TrackerState :=
  { currentHands := []
    settings :=
      { sensitivity := 1
        smoothing := true
        movementZone := { xmin := 0.1, xmax := 0.9, ymin := 0.1, ymax := 0.9 } }
    smoothingFactor := 0.7
    confidenceThreshold := 0.7 }

/-! ## Bilateral coordination activity (src/modules/therapeuticActivities.js) -/

/-- An achievement object `{name, description, type}`. -/
structure Achievement where
  name : String
  description : String
  type : String
deriving Repr, DecidableEq

/-- The value returned by `BilateralCoordination.processHands` when it is not
`null`: an optional achievement plus the `progress.bilateral` delta. -/
structure BCResult where
  achievement : Option Achievement
  progressBilateral : ℚ
deriving Repr, DecidableEq

/-- Mutable state of a `BilateralCoordination` instance.  `targetDistance`,
`tolerance` and `requiredSuccess` are set once in the constructor and never
reassigned, but are carried as fields as in the source.  The `this.progress`
status object (returned by `getProgress` only) is not modelled. -/
structure BCState where
  targetDistance : ℝ
  tolerance : ℝ
  successCount : ℕ
  requiredSuccess : ℕ

/-- The constructor state of `BilateralCoordination`: target distance 0.3,
tolerance 0.1, required count 10, success count 0. -/
noncomputable def initBCState : BCState :=
  { targetDistance := 0.3, tolerance := 0.1, successCount := 0,
    requiredSuccess := 10 }

/-- The achievement literal returned by `BilateralCoordination.processHands`. -/
def bilateralAchievement : Achievement :=
  { name := "Bilateral Coordination Master"
    description := "Successfully coordinated both hands!"
    type := "bilateral" }

/-- `BilateralCoordination.processHands` (the green coordination line drawn on
the canvas is an external side effect and omitted): `null` unless exactly two
hands with a `'left'` and a `'right'` record are present; otherwise the
Euclidean center distance decides coordination, the success counter
increments on a coordinated frame, and reaching `requiredSuccess` resets the
counter and returns the achievement together with `progress.bilateral = 1`;
a non-achieving frame returns `progress.bilateral` 0.1 or 0. -/
noncomputable def bcProcessHands (st : BCState) (hands : List Hand) :
    BCState × Option BCResult :=
  if hands.length ≠ 2 then (st, none)
  else
    match hands.find? (fun h => h.label = "left"),
        hands.find? (fun h => h.label = "right") with
    | some leftHand, some rightHand =>
        let distance := Real.sqrt
          ((leftHand.center.x - rightHand.center.x) ^ 2 +
            (leftHand.center.y - rightHand.center.y) ^ 2)
        let isCoordinated := |distance - st.targetDistance| < st.tolerance
        if isCoordinated then
          if st.successCount + 1 ≥ st.requiredSuccess then
            ({ st with successCount := 0 },
              some { achievement := some bilateralAchievement,
                     progressBilateral := 1 })
          else
            ({ st with successCount := st.successCount + 1 },
              some { achievement := none, progressBilateral := 1 / 10 })
        else (st, some { achievement := none, progressBilateral := 0 })
    | _, _ => (st, none)

/-- Feed a sequence of frames to `BilateralCoordination.processHands`,
collecting the per-frame return values. -/
noncomputable def runBC : BCState → List (List Hand) → BCState × List (Option BCResult)
  | st, [] => (st, [])
  | st, f :: fs =>
      let step := bcProcessHands st f
      let rest := runBC step.1 fs
      (rest.1, step.2 :: rest.2)

/-! ## Audio processor (src/unnamed/part_001) -/

/-- `AudioProcessor.analyzeVolume` for one analysis tick.  Input: the byte
frequency-magnitude array (values 0..255), the sensitivity setting, the
smoothing flag and the current rolling `volumeHistory`.  Output: the new
`this.volume` and the new history.  The RMS of the magnitudes is normalized
by 255 and scaled by sensitivity; with smoothing on, the value is pushed on a
history capped at 10 entries (one `shift` per overflowing `push`) and the
history mean is returned. -/
noncomputable def analyzeVolume (frequencyData : List ℕ) (sensitivity : ℝ)
    (volumeSmoothing : Bool) (volumeHistory : List ℝ) : ℝ × List ℝ :=
  let bufferLength : ℕ := frequencyData.length
  let sum : ℝ := (frequencyData.map fun d : ℕ => (d : ℝ) * (d : ℝ)).sum
  let rms := Real.sqrt (sum / bufferLength) / 255
  let volume := rms * sensitivity
  if volumeSmoothing then
    let pushed := volumeHistory ++ [volume]
    let hist := if pushed.length > 10 then pushed.tail else pushed
    (hist.sum / hist.length, hist)
  else (volume, volumeHistory)

/-- Beat-detection state of `AudioProcessor`: the dynamic threshold, the time
of the last fired beat and the current `this.beat` flag.  Timestamps are
`Date.now()` milliseconds (`ℤ`); all arithmetic here is rational, so the
threshold is a `ℚ`. -/
@[ext]
structure BeatState where
  beatThreshold : ℚ
  beatLastTime : ℤ
  beat : Bool
deriving Repr, DecidableEq

/-- Constructor values: threshold 0.3, last beat time 0, no beat. -/
def initBeatState : BeatState :=
  { beatThreshold := 3 / 10, beatLastTime := 0, beat := false }

/-- The fixed decay factor (`this.beatDecay = 0.98`). -/
def beatDecay : ℚ := 98 / 100

/-- The threshold floor (`this.beatMin = 0.15`). -/
def beatMin : ℚ := 15 / 100

/-- The cooldown window in milliseconds (`this.beatCooldown = 300`). -/
def beatCooldown : ℤ := 300

/-- Average bass energy of one tick: bytes of the bass band (bins 0 to
`min 4 bufferLength`) normalized by 255 and averaged (the `onBeatDetected`
callback is omitted). -/
def bassEnergyOf (frequencyData : List ℕ) : ℚ :=
  let bassEnd : ℕ := min 4 frequencyData.length
  let sum : ℚ := ((frequencyData.take bassEnd).map fun d => (d : ℚ) / 255).sum
  sum / (bassEnd : ℚ)

/-- `AudioProcessor.detectBeat` for one tick at time `now`: a beat fires when
the bass energy exceeds the dynamic threshold and more than the cooldown has
elapsed since the last beat; afterwards the threshold decays by `beatDecay`
but never below `beatMin`. -/
def detectBeat (st : BeatState) (frequencyData : List ℕ) (now : ℤ) : BeatState :=
  let bassEnergy := bassEnergyOf frequencyData
  let st1 :=
    if bassEnergy > st.beatThreshold ∧ now - st.beatLastTime > beatCooldown then
      { st with beat := true, beatLastTime := now }
    else { st with beat := false }
  { st1 with beatThreshold := max (st1.beatThreshold * beatDecay) beatMin }

/-- State sequence of a run of `detectBeat` over a stream of ticks
(`ticks k` = frequency data and `Date.now()` of the k-th tick):
`beatStates ticks init k` is the state after `k` ticks. -/
def beatStates (ticks : ℕ → List ℕ × ℤ) (init : BeatState) : ℕ → BeatState
  | 0 => init
  | k + 1 => detectBeat (beatStates ticks init k) (ticks k).1 (ticks k).2

/-! ## Visual effects particle subsystem (src/unnamed/part_001) -/

/-- One particle, as built by `VisualEffects.createParticle` (the color
string and the `'spark'`/`'dot'` type tag are carried along unmodified). -/
structure Particle where
  x : ℝ
  y : ℝ
  vx : ℝ
  vy : ℝ
  life : ℝ
  decay : ℝ
  size : ℝ
  type : String

/-- One iteration's worth of `Math.random()` draws inside `createParticle`
(position jitter, velocity jitter, decay, size, type selector). -/
structure RandVec where
  rx : ℝ
  ry : ℝ
  rvx : ℝ
  rvy : ℝ
  rdecay : ℝ
  rsize : ℝ
  rtype : ℝ

/-- The `maxParticles` ceiling of `VisualEffects` (constructor value 500). -/
def maxParticles : ℕ := 500

/-- `VisualEffects.createParticle`: push one particle with randomized jitter
around `(x, y)`, velocity biased by the hand's velocity, randomized decay and
size, onto the particle list.  Unconditional — no ceiling check here. -/
noncomputable def createParticle (particles : List Particle) (x y : ℝ)
    (velocity : Velocity) (r : RandVec) : List Particle :=
  particles ++
    [{ x := x + (r.rx - 0.5) * 20
       y := y + (r.ry - 0.5) * 20
       vx := (r.rvx - 0.5) * 4 + velocity.x * 100
       vy := (r.rvy - 0.5) * 4 + velocity.y * 100
       life := 1
       decay := r.rdecay * 0.02 + 0.01
       size := r.rsize * 8 + 2
       type := if r.rtype > 0.7 then "spark" else "dot" }]

/-- The inner spawn loop of `VisualEffects.handleParticles` for one hand:
`count` guarded `createParticle` calls, each only when the particle list is
still below `maxParticles`. -/
noncomputable def spawnLoop (x y : ℝ) (velocity : Velocity) (rv : ℕ → RandVec) :
    ℕ → List Particle → List Particle
  | 0, particles => particles
  | n + 1, particles =>
      let particles' :=
        if particles.length < maxParticles then
          createParticle particles x y velocity (rv n)
        else particles
      spawnLoop x y velocity rv n particles'

/-- `VisualEffects.handleParticles` for a single-hand frame on a canvas of
size `width × height`: spawn `max 1 ⌊velocity.magnitude * 10⌋` particles at
the scaled hand center, subject to the ceiling guard. -/
noncomputable def handleParticlesOne (particles : List Particle)
    (width height : ℝ) (hand : Hand) (rv : ℕ → RandVec) : List Particle :=
  let x := hand.center.x * width
  let y := hand.center.y * height
  let particleCount : ℕ := max 1 (Int.toNat ⌊hand.velocity.magnitude * 10⌋)
  spawnLoop x y hand.velocity rv particleCount particles

/-- `VisualEffects.updateParticles`: integrate position, apply gravity and
friction, decrement life, shrink size, and drop particles with `life ≤ 0` or
`size < 0.5`. -/
noncomputable def updateParticles (particles : List Particle) : List Particle :=
  (particles.map fun p =>
    let vx := p.vx * 0.99
    let vy := (p.vy + 0.1) * 0.99
    { p with
      x := p.x + p.vx
      y := p.y + p.vy
      vx := vx
      vy := vy
      life := p.life - p.decay
      size := p.size * 0.99 }).filter
    fun p => decide (¬(p.life ≤ 0 ∨ p.size < 0.5))

/-- The number of celebration particles for an intensity setting
(`'high' → 50`, `'medium' → 30`, otherwise 15). -/
def celebrationCount (intensity : String) : ℕ :=
  if intensity = "high" then 50 else if intensity = "medium" then 30 else 15

/-- The unguarded particle-burst loop of
`TherapeuticActivities.triggerCelebration` (the full-surface flash and the
random burst positions do not affect the particle count; each iteration calls
`VisualEffects.createParticle` directly, with no `maxParticles` check). -/
noncomputable def triggerCelebrationParticles (particles : List Particle)
    (intensity : String) (positions : ℕ → ℝ × ℝ) (rv : ℕ → RandVec) :
    List Particle :=
  (List.range (celebrationCount intensity)).foldl
    (fun acc i =>
      createParticle acc (positions i).1 (positions i).2 ⟨0, 0, 1⟩ (rv i))
    particles

/-- `VisualEffects.handleParticles` over a hand list: the per-hand spawn
loops run in list order (`rv i` is the random stream of the i-th hand). -/
noncomputable def handleParticles (particles : List Particle)
    (width height : ℝ) (hands : List Hand) (rv : ℕ → ℕ → RandVec) :
    List Particle :=
  hands.enum.foldl
    (fun acc ih => handleParticlesOne acc width height ih.2 (rv ih.1))
    particles

/-! ## Therapeutic activities engine (src/modules/therapeuticActivities.js) -/

/-- The `progress` object an activity may return: partial per-category
deltas.  The engine treats a field as present when it is JavaScript-truthy,
i.e. present and nonzero. -/
structure ProgressDelta where
  bilateral : Option ℚ
  largeMovement : Option ℚ
  fineMovement : Option ℚ

/-- A non-`null` return value of an activity's `processHands`. -/
structure ActivityResult where
  achievement : Option Achievement
  progress : Option ProgressDelta

/-- A timestamped achievement as pushed on `sessionData.achievements`. -/
structure StampedAchievement where
  achievement : Achievement
  timestamp : ℤ

/-- One entry of `sessionData.activities` (the merged settings snapshot
stored with the entry is not read anywhere and is not modelled). -/
structure ActivityLogEntry where
  name : String
  startTime : ℤ
  endTime : Option ℤ
  duration : Option ℤ

/-- `this.sessionData` of `TherapeuticActivities`. -/
structure SessionData where
  startTime : Option ℤ
  activities : List ActivityLogEntry
  achievements : List StampedAchievement
  totalMovements : ℕ
  bilateralCoordination : ℚ
  largeMovements : ℚ
  fineMovements : ℚ

/-- The initial / reset session data. -/
def emptySessionData : SessionData :=
  { startTime := none, activities := [], achievements := [],
    totalMovements := 0, bilateralCoordination := 0, largeMovements := 0,
    fineMovements := 0 }

/-- Engine state of `TherapeuticActivities`: the activity catalog keys (the
six names on successful construction, empty when the constructor's `catch`
ran), the current-activity reference, the active flag and the session data.
The per-instance activity states live in the instances themselves and are
threaded separately where a claim needs them.  `settings` is reduced to the
one field the analysed paths read (`celebrationIntensity`); callbacks
(`onAchievement`, `onProgressUpdate`) and the `visualEffects` /
`audioProcessor` references are external collaborators and omitted. -/
structure EngineState where
  activities : List String
  currentActivity : Option String
  isActive : Bool
  sessionData : SessionData
  celebrationIntensity : String

/-- The six catalog keys built by the constructor's `try` block. -/
def defaultCatalog : List String :=
  ["bilateral-coordination", "cause-effect", "large-movement", "fine-motor",
    "rhythm-sync", "emotional-expression"]

/-- `TherapeuticActivities.stopActivity` at time `now`: when an activity is
active, close the last session-log entry (end time and duration), clear the
flag and the current-activity reference; otherwise do nothing.  The
`currentActivity.stop()` call only clears the instance's own active flag and
is not part of the engine state. -/
def stopActivity (s : EngineState) (now : ℤ) : EngineState :=
  if s.currentActivity.isSome ∧ s.isActive then
    let acts := s.sessionData.activities
    let acts' :=
      match acts.getLast? with
      | some entry =>
          let closed :=
            { entry with
              endTime := some now
              duration := some (now - entry.startTime) }
          acts.dropLast ++ [closed]
      | none => acts
    { s with
      isActive := false
      currentActivity := none
      sessionData := { s.sessionData with activities := acts' } }
  else s

/-- `TherapeuticActivities.startActivity` at time `now`: an unknown name
reports failure and changes nothing; a catalog name first stops any running
activity, then installs the new one, sets the session start time if unset and
appends a session-log entry.  (`currentActivity.start(...)` initializes the
instance with merged settings and is instance-local.) -/
def startActivity (s : EngineState) (activityName : String) (now : ℤ) :
    EngineState × Bool :=
  if activityName ∈ s.activities then
    let s1 := stopActivity s now
    let startTime := match s1.sessionData.startTime with
      | some t => some t
      | none => some now
    let s2 :=
      { s1 with
        currentActivity := some activityName
        isActive := true
        sessionData :=
          { s1.sessionData with
            startTime := startTime
            activities := s1.sessionData.activities ++
              [{ name := activityName, startTime := now, endTime := none,
                  duration := none }] } }
    (s2, true)
  else (s, false)

/-- `TherapeuticActivities.handleAchievement` at time `now`: stamp and append
the achievement.  The `triggerCelebration` particle burst acts on the
`VisualEffects` particle list and is modelled by
`triggerCelebrationParticles`; the `onAchievement` callback is external. -/
def handleAchievement (s : EngineState) (a : Achievement) (now : ℤ) :
    EngineState :=
  { s with
    sessionData :=
      { s.sessionData with
        achievements := s.sessionData.achievements ++ [⟨a, now⟩] } }

/-- `TherapeuticActivities.updateProgress`: add each JavaScript-truthy
(present and nonzero) delta to its session counter.  The `onProgressUpdate`
callback is external. -/
def updateProgress (s : EngineState) (p : ProgressDelta) : EngineState :=
  let d := s.sessionData
  let d1 := match p.bilateral with
    | some q => if q ≠ 0 then
        { d with bilateralCoordination := d.bilateralCoordination + q } else d
    | none => d
  let d2 := match p.largeMovement with
    | some q => if q ≠ 0 then
        { d1 with largeMovements := d1.largeMovements + q } else d1
    | none => d1
  let d3 := match p.fineMovement with
    | some q => if q ≠ 0 then
        { d2 with fineMovements := d2.fineMovements + q } else d2
    | none => d2
  { s with sessionData := d3 }

/-- `TherapeuticActivities.processHands` at the engine boundary.  The active
instance's `processHands` is the polymorphic call `act`; JavaScript
exceptions are modelled as `Except.error`.  The source has no `try`/`catch`
here: the movement counter is bumped first (so the mutation survives a
throw), then the activity runs, and an exception propagates to the caller
while achievement and progress handling are skipped. -/
def engineProcessHands
    (act : List Hand → Except String (Option ActivityResult))
    (s : EngineState) (hands : List Hand) (now : ℤ) :
    EngineState × Except String Unit :=
  if s.isActive = false ∨ s.currentActivity = none then (s, .ok ())
  else
    let s1 :=
      { s with
        sessionData :=
          { s.sessionData with
            totalMovements := s.sessionData.totalMovements + hands.length } }
    match act hands with
    | .error e => (s1, .error e)
    | .ok none => (s1, .ok ())
    | .ok (some result) =>
        let s2 := match result.achievement with
          | some a => handleAchievement s1 a now
          | none => s1
        let s3 := match result.progress with
          | some p => updateProgress s2 p
          | none => s2
        (s3, .ok ())

/-- `sessionDuration` of `TherapeuticActivities.getSessionSummary`. -/
def sessionDuration (s : EngineState) (now : ℤ) : ℤ :=
  match s.sessionData.startTime with
  | some t => now - t
  | none => 0

/-- `averageMovementsPerMinute` of `getSessionSummary`:
`totalMovements / (sessionDuration / 60000)` when the duration is positive,
0 otherwise. -/
def averageMovementsPerMinute (s : EngineState) (now : ℤ) : ℚ :=
  let duration := sessionDuration s now
  if duration > 0 then
    (s.sessionData.totalMovements : ℚ) / ((duration : ℚ) / 60000)
  else 0

/-! ## Concrete scenarios used by witnesses and counterexamples -/

/-- A fast-moving hand (velocity magnitude 50, e.g. half the screen width in
10 ms at sensitivity 1), whose particle-mode frame spawns 500 particles. -/
noncomputable def fastHand : Hand :=
  { id := "Left_0", label := "left", confidence := 1, landmarks := [],
    center := ⟨0.5, 0.5, 0⟩, size := 0, velocity := ⟨0, 0, 50⟩,
    gestures := ⟨false, false, false, false⟩, timestamp := 0 }

/-- An arbitrary fixed random stream for particle spawning. -/
noncomputable def zeroRand : ℕ → RandVec := fun _ => ⟨0, 0, 0, 0, 0, 0, 0⟩

/-- Arbitrary fixed celebration burst positions. -/
noncomputable def zeroPositions : ℕ → ℝ × ℝ := fun _ => (0, 0)

/-- A loud constant input: bass energy 1, ticks 400 ms apart. -/
def loudTicks : ℕ → List ℕ × ℤ :=
  fun k => ([255, 255, 255, 255], 1000 + 400 * (k : ℤ))

/-- The frame shape of claim C1: exactly two hands, a `'left'` and a
`'right'` record, whose Euclidean center distance `d` satisfies
`|d - 0.3| < 0.1` (the default target distance and tolerance). -/
def goodBCFrame (f : List Hand) : Prop :=
  f.length = 2 ∧
    ∃ l r, f.find? (fun h => h.label = "left") = some l ∧
      f.find? (fun h => h.label = "right") = some r ∧
      |Real.sqrt ((l.center.x - r.center.x) ^ 2 +
        (l.center.y - r.center.y) ^ 2) - 0.3| < 0.1

/-- A `BilateralCoordination` state at success count `c` (defaults
otherwise). -/
noncomputable def mkBC (c : ℕ) : BCState :=
  { initBCState with successCount := c }

/-- A left hand at center `(0.2, 0.5)`. -/
noncomputable def lHandC1 : Hand :=
  { id := "Left_0", label := "left", confidence := 1, landmarks := [],
    center := ⟨0.2, 0.5, 0⟩, size := 0, velocity := ⟨0, 0, 0⟩,
    gestures := ⟨false, false, false, false⟩, timestamp := 0 }

/-- A right hand at center `(0.5, 0.5)` — distance 0.3 from `lHandC1`. -/
noncomputable def rHandC1 : Hand :=
  { id := "Right_1", label := "right", confidence := 1, landmarks := [],
    center := ⟨0.5, 0.5, 0⟩, size := 0, velocity := ⟨0, 0, 0⟩,
    gestures := ⟨false, false, false, false⟩, timestamp := 0 }

/-- The two-hand frame at exactly the target distance. -/
noncomputable def pairC1 : List Hand := [lHandC1, rHandC1]

/-- The landmark point used by the tracker scenario. -/
noncomputable def ptT : Pt3 := ⟨0.4, 0.5, 0.2⟩

/-- 21 identical landmarks at `ptT`, giving the mirrored center
`(0.6, 0.5, 0.2)`. -/
noncomputable def lmT : List Pt3 := List.replicate 21 ptT

/-- The previous frame's record of the left hand: smoothed center
`(0.4, 0.5)` at time 0, carrying the nonzero velocity of an earlier frame
pair. -/
noncomputable def prevHandT : Hand :=
  { id := "Left_0", label := "left", confidence := 0.9,
    landmarks := List.replicate 21 ⟨0.6, 0.5, 0⟩,
    center := ⟨0.4, 0.5, 0⟩, size := 0, velocity := ⟨6 / 100, 0, 6 / 100⟩,
    gestures := ⟨false, false, false, false⟩, timestamp := 0 }

/-- The tracker mid-run: default settings, previous frame held the left
hand. -/
noncomputable def trackerStateT : TrackerState :=
  { initialTrackerState with currentHands := [prevHandT] }

/-- A raw MediaPipe hand (`'Right'` flips to label `'left'`), confidence
0.9, all landmarks at `ptT`. -/
noncomputable def rawHandT : RawHand :=
  { landmarks := lmT, score := 0.9, label := "Right" }

/-- The single hand record produced by running the scenario frame at time
`t` (spelled as the stage composition the pipeline applies to it). -/
noncomputable def outHandT (t : ℝ) : Hand :=
  detectHandGestures (calcHandVelocity [prevHandT] 1
    (smoothHand [prevHandT] 0.7 (processHandData rawHandT 0 t)))

/-- The progress-only return value of a coordinated, non-achieving frame:
`{progress: {bilateral: 0.1}}`. -/
def bcProgressResult : Option BCResult :=
  some { achievement := none, progressBilateral := 1 / 10 }

/-- The achieving return value: the `"bilateral"` achievement plus
`{progress: {bilateral: 1}}`. -/
def bcAchievementResult : Option BCResult :=
  some { achievement := some bilateralAchievement, progressBilateral := 1 }

/-- A hand record with no motion, for engine-level scenarios that never read
hand fields. -/
noncomputable def dummyHand : Hand :=
  { id := "Left_0", label := "left", confidence := 1, landmarks := [],
    center := ⟨0, 0, 0⟩, size := 0, velocity := ⟨0, 0, 0⟩,
    gestures := ⟨false, false, false, false⟩, timestamp := 0 }

/-- An engine with the full catalog and a running activity. -/
def engineStateW : EngineState :=
  { activities := defaultCatalog
    currentActivity := some "large-movement"
    isActive := true
    sessionData := emptySessionData
    celebrationIntensity := "medium" }

/-- A session that already started at time 0 with 7 recorded movements. -/
def sessionW : SessionData :=
  { startTime := some 0, activities := [], achievements := [],
    totalMovements := 7, bilateralCoordination := 0, largeMovements := 0,
    fineMovements := 0 }

/-- An engine mid-session, running the fine-motor activity. -/
def engineStateW2 : EngineState :=
  { activities := defaultCatalog
    currentActivity := some "fine-motor"
    isActive := true
    sessionData := sessionW
    celebrationIntensity := "low" }

/-- An activity instance whose `processHands` throws (a JavaScript
`TypeError`, modelled as `Except.error`). -/
def throwingActivity : List Hand → Except String (Option ActivityResult) :=
  fun _ => Except.error "TypeError"

/-- An activity instance whose `processHands` returns `null`. -/
def nullActivity : List Hand → Except String (Option ActivityResult) :=
  fun _ => Except.ok none

end Manine

namespace Manine

/-! ## C6 — unknown activity names leave the engine unchanged -/

/-- C6: for every engine state and every activity name not in the catalog,
`startActivity` returns failure and the state — `currentActivity`,
`isActive`, the whole session log — is exactly the input state; in
particular no running activity is stopped. -/
theorem startActivity_unknown_leaves_state (s : EngineState)
    (activityName : String) (now : ℤ) (h : activityName ∉ s.activities) :
    startActivity s activityName now = (s, false) := by
  unfold startActivity
  rw [if_neg h]

/-- Witness for C6: starting the unregistered activity `"dance-party"` on a
running engine fails and returns the state unchanged. -/
theorem startActivity_unknown_leaves_state_witness :
    "dance-party" ∉ engineStateW.activities ∧
      startActivity engineStateW "dance-party" 5000 = (engineStateW, false) :=
  ⟨by decide, startActivity_unknown_leaves_state engineStateW "dance-party"
    5000 (by decide)⟩

/-! ## C8 — exceptions in an activity's `processHands` are NOT caught -/

/-- C8 counterexample: it is false that an engine-level `processHands` call
never propagates an exception raised inside the active activity's
`processHands` — the source has no `try`/`catch` at that boundary, so a
throwing activity makes the engine call itself throw. -/
theorem engineProcessHands_not_caught :
    ¬ ∀ (act : List Hand → Except String (Option ActivityResult))
        (s : EngineState) (hands : List Hand) (now : ℤ) (e : String),
        (engineProcessHands act s hands now).2 ≠ Except.error e := by
  intro hclaim
  exact hclaim throwingActivity engineStateW [] 0 "TypeError" rfl

/-- C8 amended: with an activity running, an exception raised inside the
active activity's per-frame `processHands` propagates unchanged out of the
engine-level `processHands` call to its caller (the movement counter bump
before the call survives, and achievement/progress handling is skipped). -/
theorem engineProcessHands_propagates
    (act : List Hand → Except String (Option ActivityResult))
    (s : EngineState) (hands : List Hand) (now : ℤ) (e : String)
    (hAct : s.isActive = true) (hCur : s.currentActivity ≠ none)
    (hErr : act hands = Except.error e) :
    (engineProcessHands act s hands now).2 = Except.error e := by
  simp [engineProcessHands, hAct, hCur, hErr]

/-- Witness for C8 (amended): on a running engine, a throwing activity makes
the engine-level call return that very error. -/
theorem engineProcessHands_propagates_witness :
    engineStateW.isActive = true ∧ engineStateW.currentActivity ≠ none ∧
      (engineProcessHands throwingActivity engineStateW [] 0).2 =
        Except.error "TypeError" :=
  ⟨rfl, by decide,
    engineProcessHands_propagates throwingActivity engineStateW [] 0
      "TypeError" rfl (by decide) rfl⟩

/-! ## C9 — totalMovements counts hand-frames -/

theorem updateProgress_meta (s : EngineState) (p : ProgressDelta) :
    (updateProgress s p).sessionData.totalMovements =
        s.sessionData.totalMovements ∧
      (updateProgress s p).sessionData.startTime = s.sessionData.startTime := by
  rcases p with ⟨b, l, f⟩
  unfold updateProgress
  cases b <;> cases l <;> cases f <;> dsimp only <;>
    first
      | exact ⟨rfl, rfl⟩
      | (split_ifs <;> exact ⟨rfl, rfl⟩)

theorem handleAchievement_meta (s : EngineState) (a : Achievement) (now : ℤ) :
    (handleAchievement s a now).sessionData.totalMovements =
        s.sessionData.totalMovements ∧
      (handleAchievement s a now).sessionData.startTime =
        s.sessionData.startTime :=
  ⟨rfl, rfl⟩

theorem engineProcessHands_meta
    (act : List Hand → Except String (Option ActivityResult))
    (s : EngineState) (hands : List Hand) (now : ℤ)
    (hAct : s.isActive = true) (hCur : s.currentActivity ≠ none) :
    ((engineProcessHands act s hands now).1).sessionData.totalMovements =
        s.sessionData.totalMovements + hands.length ∧
      ((engineProcessHands act s hands now).1).sessionData.startTime =
        s.sessionData.startTime := by
  unfold engineProcessHands
  rw [if_neg (by simp [hAct, hCur])]
  cases hres : act hands with
  | error e => exact ⟨rfl, rfl⟩
  | ok r =>
      cases r with
      | none => exact ⟨rfl, rfl⟩
      | some result =>
          dsimp only
          cases hach : result.achievement with
          | none =>
              cases hp : result.progress with
              | none => exact ⟨rfl, rfl⟩
              | some p => exact updateProgress_meta _ p
          | some a =>
              cases hp : result.progress with
              | none => exact handleAchievement_meta _ a now
              | some p =>
                  constructor
                  · rw [(updateProgress_meta _ p).1,
                      (handleAchievement_meta _ a now).1]
                  · rw [(updateProgress_meta _ p).2,
                      (handleAchievement_meta _ a now).2]

/-- C9: while an activity is active, an engine-level `processHands` call adds
the number of hand records in the frame to `sessionData.totalMovements`,
whatever the activity returns (achievement, progress, `null`, or a thrown
exception), and the derived session-summary average at any query time `t` is
that hand-frame count divided by the session duration in minutes (0 when the
duration is not positive). -/
theorem engineProcessHands_counts_hand_frames
    (act : List Hand → Except String (Option ActivityResult))
    (s : EngineState) (hands : List Hand) (now t : ℤ)
    (hAct : s.isActive = true) (hCur : s.currentActivity ≠ none) :
    ((engineProcessHands act s hands now).1).sessionData.totalMovements =
        s.sessionData.totalMovements + hands.length ∧
      averageMovementsPerMinute (engineProcessHands act s hands now).1 t =
        (if sessionDuration s t > 0 then
          ((s.sessionData.totalMovements + hands.length : ℕ) : ℚ) /
            ((sessionDuration s t : ℚ) / 60000)
        else 0) := by
  obtain ⟨htot, hstart⟩ := engineProcessHands_meta act s hands now hAct hCur
  have hdur : sessionDuration (engineProcessHands act s hands now).1 t =
      sessionDuration s t := by
    unfold sessionDuration
    rw [hstart]
  refine ⟨htot, ?_⟩
  unfold averageMovementsPerMinute
  rw [hdur, htot]

/-- Witness for C9: on a running engine with 7 recorded movements and session
start time 0, a two-hand frame brings the counter to 9, and the average at
one minute is computed from 9 movements over 60000 ms. -/
theorem engineProcessHands_counts_hand_frames_witness :
    engineStateW2.isActive = true ∧ engineStateW2.currentActivity ≠ none ∧
      ((engineProcessHands nullActivity engineStateW2 [dummyHand, dummyHand]
          100).1).sessionData.totalMovements =
        engineStateW2.sessionData.totalMovements +
          [dummyHand, dummyHand].length ∧
      averageMovementsPerMinute
          (engineProcessHands nullActivity engineStateW2
            [dummyHand, dummyHand] 100).1 60000 =
        (if sessionDuration engineStateW2 60000 > 0 then
          ((engineStateW2.sessionData.totalMovements +
              [dummyHand, dummyHand].length : ℕ) : ℚ) /
            ((sessionDuration engineStateW2 60000 : ℚ) / 60000)
        else 0) :=
  ⟨rfl, by decide,
    (engineProcessHands_counts_hand_frames nullActivity engineStateW2
      [dummyHand, dummyHand] 100 60000 rfl (by decide)).1,
    (engineProcessHands_counts_hand_frames nullActivity engineStateW2
      [dummyHand, dummyHand] 100 60000 rfl (by decide)).2⟩

/-! ## C4 — the particle ceiling is broken by achievement celebrations -/

theorem createParticle_length (particles : List Particle) (x y : ℝ)
    (v : Velocity) (r : RandVec) :
    (createParticle particles x y v r).length = particles.length + 1 := by
  simp [createParticle]

theorem spawnLoop_length (x y : ℝ) (v : Velocity) (rv : ℕ → RandVec)
    (n : ℕ) (particles : List Particle)
    (h : particles.length ≤ maxParticles) :
    (spawnLoop x y v rv n particles).length =
      min (particles.length + n) maxParticles := by
  induction n generalizing particles with
  | zero => simpa [spawnLoop] using Nat.min_eq_left h
  | succ n ih =>
      unfold spawnLoop
      by_cases hlt : particles.length < maxParticles
      · rw [if_pos hlt, ih _ (by rw [createParticle_length]; omega),
          createParticle_length]
        omega
      · rw [if_neg hlt, ih _ h]
        omega

theorem triggerCelebrationParticles_length (particles : List Particle)
    (intensity : String) (positions : ℕ → ℝ × ℝ) (rv : ℕ → RandVec) :
    (triggerCelebrationParticles particles intensity positions rv).length =
      particles.length + celebrationCount intensity := by
  unfold triggerCelebrationParticles
  have key : ∀ (idx : List ℕ) (acc : List Particle),
      (idx.foldl
        (fun acc i =>
          createParticle acc (positions i).1 (positions i).2 ⟨0, 0, 1⟩ (rv i))
        acc).length = acc.length + idx.length := by
    intro idx
    induction idx with
    | nil => simp
    | cons i is ih =>
        intro acc
        rw [List.foldl_cons, ih, createParticle_length, List.length_cons]
        omega
  rw [key, List.length_range]

/-- C4 (code bug): the particle-count invariant fails.  One particle-mode
frame with a fast hand legitimately fills the list to exactly
`maxParticles = 500` (the spawn loop is guarded), but the subsequent
`triggerCelebration` of an achievement pushes its burst unguarded: at the
default `'medium'` intensity the count reaches 530 > 500, exceeding the
ceiling until the next update tick trims it. -/
theorem particle_ceiling_broken :
    (handleParticles [] 800 600 [fastHand] (fun _ => zeroRand)).length =
        maxParticles ∧
      (triggerCelebrationParticles
          (handleParticles [] 800 600 [fastHand] (fun _ => zeroRand))
          "medium" zeroPositions zeroRand).length = 530 ∧
      maxParticles <
        (triggerCelebrationParticles
          (handleParticles [] 800 600 [fastHand] (fun _ => zeroRand))
          "medium" zeroPositions zeroRand).length := by
  have hcount : max 1 (Int.toNat ⌊fastHand.velocity.magnitude * 10⌋) = 500 := by
    have : fastHand.velocity.magnitude * 10 = ((500 : ℤ) : ℝ) := by
      norm_num [fastHand]
    rw [this, Int.floor_intCast]
    rfl
  have h1 : (handleParticles [] 800 600 [fastHand]
      (fun _ => zeroRand)).length = maxParticles := by
    unfold handleParticles handleParticlesOne
    rw [List.enum]
    simp only [List.enumFrom, List.foldl]
    rw [hcount, spawnLoop_length _ _ _ _ _ _ (by simp [maxParticles])]
    simp [maxParticles]
  refine ⟨h1, ?_, ?_⟩
  · rw [triggerCelebrationParticles_length, h1]
    rfl
  · rw [triggerCelebrationParticles_length, h1]
    simp [maxParticles, celebrationCount]

/-! ## C7 — beats are separated by more than the cooldown -/

theorem detectBeat_fired (st : BeatState) (freq : List ℕ) (now : ℤ)
    (h : (detectBeat st freq now).beat = true) :
    (detectBeat st freq now).beatLastTime = now ∧
      now - st.beatLastTime > beatCooldown := by
  by_cases hc : bassEnergyOf freq > st.beatThreshold ∧
      now - st.beatLastTime > beatCooldown
  · exact ⟨by simp [detectBeat, hc], hc.2⟩
  · exact absurd h (by simp [detectBeat, hc])

theorem detectBeat_beatLastTime (st : BeatState) (freq : List ℕ) (now : ℤ) :
    (detectBeat st freq now).beatLastTime = st.beatLastTime ∨
      (detectBeat st freq now).beatLastTime = now := by
  by_cases hc : bassEnergyOf freq > st.beatThreshold ∧
      now - st.beatLastTime > beatCooldown
  · exact Or.inr (by simp [detectBeat, hc])
  · exact Or.inl (by simp [detectBeat, hc])

theorem beatLastTime_ge (ticks : ℕ → List ℕ × ℤ) (init : BeatState)
    (hmono : ∀ a b : ℕ, a ≤ b → (ticks a).2 ≤ (ticks b).2) (i : ℕ)
    (hi : (beatStates ticks init (i + 1)).beat = true) :
    ∀ k, i + 1 ≤ k → (ticks i).2 ≤ (beatStates ticks init k).beatLastTime := by
  intro k
  induction k with
  | zero => omega
  | succ k ih =>
      intro hk
      rcases Nat.lt_or_ge (i + 1) (k + 1) with hlt | hge
      · have hik : i + 1 ≤ k := by omega
        show (ticks i).2 ≤ (detectBeat (beatStates ticks init k) (ticks k).1
          (ticks k).2).beatLastTime
        rcases detectBeat_beatLastTime (beatStates ticks init k) (ticks k).1
            (ticks k).2 with heq | heq
        · rw [heq]; exact ih hik
        · rw [heq]; exact hmono i k (by omega)
      · have : k = i := by omega
        subst this
        exact le_of_eq
          (detectBeat_fired (beatStates ticks init k) (ticks k).1
            (ticks k).2 hi).1.symm

/-- C7: in any run of `detectBeat` over ticks with nondecreasing `Date.now()`
timestamps, two fired beats are always separated by more than the 300 ms
cooldown: if the ticks at positions `i < j` both fire `beat = true`, then
more than `beatCooldown` milliseconds lie between their timestamps.  In
particular no beat fires within 300 ms after another. -/
theorem beats_separated_by_cooldown (ticks : ℕ → List ℕ × ℤ)
    (init : BeatState)
    (hmono : ∀ a b : ℕ, a ≤ b → (ticks a).2 ≤ (ticks b).2) (i j : ℕ)
    (hij : i < j) (hi : (beatStates ticks init (i + 1)).beat = true)
    (hj : (beatStates ticks init (j + 1)).beat = true) :
    (ticks j).2 - (ticks i).2 > beatCooldown := by
  have hfire := detectBeat_fired (beatStates ticks init j) (ticks j).1
    (ticks j).2 hj
  have hge := beatLastTime_ge ticks init hmono i hi j (by omega)
  omega

theorem loudTicks_beat_one :
    beatStates loudTicks initBeatState 1 =
      { beatThreshold := 147 / 500, beatLastTime := 1000, beat := true } := by
  have e255 : bassEnergyOf [255, 255, 255, 255] = 1 := by
    norm_num [bassEnergyOf, List.take, List.sum_cons]
  have step : beatStates loudTicks initBeatState 1 =
      detectBeat initBeatState (loudTicks 0).1 (loudTicks 0).2 := rfl
  have t0 : loudTicks 0 = ([255, 255, 255, 255], 1000) := by
    norm_num [loudTicks]
  rw [step, t0]
  simp only [detectBeat, initBeatState, e255]
  rw [if_pos (by norm_num [beatCooldown])]
  ext
  · show max (3 / 10 * beatDecay) beatMin = 147 / 500
    rw [max_eq_left (by norm_num [beatDecay, beatMin])]
    norm_num [beatDecay]
  · rfl
  · rfl

theorem loudTicks_beat_two :
    (beatStates loudTicks initBeatState 2).beat = true := by
  have e255 : bassEnergyOf [255, 255, 255, 255] = 1 := by
    norm_num [bassEnergyOf, List.take, List.sum_cons]
  have step : beatStates loudTicks initBeatState 2 =
      detectBeat (beatStates loudTicks initBeatState 1) (loudTicks 1).1
        (loudTicks 1).2 := rfl
  have t1 : loudTicks 1 = ([255, 255, 255, 255], 1400) := by
    norm_num [loudTicks]
  rw [step, loudTicks_beat_one, t1]
  simp only [detectBeat, e255]
  rw [if_pos (by norm_num [beatCooldown])]

/-- Witness for C7: with full-scale bass at ticks 1000 ms and 1400 ms, both
ticks fire a beat and their separation (400 ms) exceeds the cooldown. -/
theorem beats_separated_by_cooldown_witness :
    (beatStates loudTicks initBeatState 1).beat = true ∧
      (beatStates loudTicks initBeatState 2).beat = true ∧
      (loudTicks 1).2 - (loudTicks 0).2 > beatCooldown :=
  ⟨by rw [loudTicks_beat_one], loudTicks_beat_two,
    beats_separated_by_cooldown loudTicks initBeatState
      (by
        intro a b hab
        simp only [loudTicks]
        omega)
      0 1 (by omega) (by rw [loudTicks_beat_one]) loudTicks_beat_two⟩

/-! ## Tracker pipeline stage lemmas (C2, C3, C10) -/

theorem detectHandGestures_velocity (h : Hand) :
    (detectHandGestures h).velocity = h.velocity := rfl

theorem detectHandGestures_center (h : Hand) :
    (detectHandGestures h).center = h.center := rfl

theorem detectHandGestures_label (h : Hand) :
    (detectHandGestures h).label = h.label := rfl

theorem detectHandGestures_timestamp (h : Hand) :
    (detectHandGestures h).timestamp = h.timestamp := rfl

theorem calcHandVelocity_center (prev : List Hand) (sens : ℝ) (h : Hand) :
    (calcHandVelocity prev sens h).center = h.center := by
  unfold calcHandVelocity
  cases prev.find? (fun q => q.label = h.label) with
  | none => rfl
  | some p =>
      dsimp only
      split <;> rfl

theorem calcHandVelocity_label (prev : List Hand) (sens : ℝ) (h : Hand) :
    (calcHandVelocity prev sens h).label = h.label := by
  unfold calcHandVelocity
  cases prev.find? (fun q => q.label = h.label) with
  | none => rfl
  | some p =>
      dsimp only
      split <;> rfl

theorem calcHandVelocity_timestamp (prev : List Hand) (sens : ℝ) (h : Hand) :
    (calcHandVelocity prev sens h).timestamp = h.timestamp := by
  unfold calcHandVelocity
  cases prev.find? (fun q => q.label = h.label) with
  | none => rfl
  | some p =>
      dsimp only
      split <;> rfl

theorem smoothHand_velocity (prev : List Hand) (sf : ℝ) (h : Hand) :
    (smoothHand prev sf h).velocity = h.velocity := by
  unfold smoothHand
  cases prev.find? (fun q => q.label = h.label) <;> rfl

theorem smoothHand_label (prev : List Hand) (sf : ℝ) (h : Hand) :
    (smoothHand prev sf h).label = h.label := by
  unfold smoothHand
  cases prev.find? (fun q => q.label = h.label) <;> rfl

theorem smoothHand_timestamp (prev : List Hand) (sf : ℝ) (h : Hand) :
    (smoothHand prev sf h).timestamp = h.timestamp := by
  unfold smoothHand
  cases prev.find? (fun q => q.label = h.label) <;> rfl

theorem smoothHand_center_z (prev : List Hand) (sf : ℝ) (h : Hand) :
    (smoothHand prev sf h).center.z = h.center.z := by
  unfold smoothHand
  cases prev.find? (fun q => q.label = h.label) <;> rfl

/-- The `currentHands` field written by `processFrame`, as the composition of
the filtering, optional smoothing, velocity and gesture stages. -/
theorem processFrame_currentHands (s : TrackerState) (raws : List RawHand)
    (now : ℝ) :
    (processFrame s raws now).currentHands =
      ((if s.settings.smoothing then
          (buildFrameHands s raws now).map
            (smoothHand s.currentHands s.smoothingFactor)
        else buildFrameHands s raws now).map
        (calcHandVelocity s.currentHands s.settings.sensitivity)).map
        detectHandGestures := rfl

/-- Every hand the filter loop keeps is `processHandData` of one of the raw
hands (with its raw index and the frame time). -/
theorem mem_buildFrameHands (s : TrackerState) (raws : List RawHand)
    (now : ℝ) (b : Hand) (hb : b ∈ buildFrameHands s raws now) :
    ∃ ir ∈ raws.enum, b = processHandData ir.2 ir.1 now := by
  unfold buildFrameHands at hb
  obtain ⟨ir, hir, hfb⟩ := List.mem_filterMap.mp hb
  refine ⟨ir, hir, ?_⟩
  by_cases h1 : ir.2.score < s.confidenceThreshold
  · rw [if_pos h1] at hfb
    exact absurd hfb (by simp)
  · rw [if_neg h1] at hfb
    dsimp only at hfb
    by_cases h2 : isInMovementZone s.settings.movementZone
        (processHandData ir.2 ir.1 now)
    · rw [if_pos h2] at hfb
      exact (Option.some_inj.mp hfb).symm
    · rw [if_neg h2] at hfb
      exact absurd hfb (by simp)

/-- `calculateHandVelocities` in the matched, positive-elapsed-time case:
the velocity written is the per-axis center difference over elapsed seconds
scaled by sensitivity, with the Euclidean-norm magnitude. -/
theorem calcHandVelocity_spec (prev : List Hand) (sens : ℝ) (b p : Hand)
    (hfind : prev.find? (fun q => q.label = b.label) = some p)
    (hdt : (b.timestamp - p.timestamp) / 1000 > 0) :
    (calcHandVelocity prev sens b).velocity =
      { x := (b.center.x - p.center.x) /
          ((b.timestamp - p.timestamp) / 1000) * sens
        y := (b.center.y - p.center.y) /
          ((b.timestamp - p.timestamp) / 1000) * sens
        magnitude := Real.sqrt
          ((b.center.x - p.center.x) * (b.center.x - p.center.x) +
            (b.center.y - p.center.y) * (b.center.y - p.center.y)) /
          ((b.timestamp - p.timestamp) / 1000) * sens } := by
  unfold calcHandVelocity
  rw [hfind]
  dsimp only
  rw [if_pos hdt]

/-- `calculateHandVelocities` in the matched, non-positive-elapsed-time case:
the velocity field is left untouched. -/
theorem calcHandVelocity_nonpos (prev : List Hand) (sens : ℝ) (b p : Hand)
    (hfind : prev.find? (fun q => q.label = b.label) = some p)
    (hdt : ¬(b.timestamp - p.timestamp) / 1000 > 0) :
    (calcHandVelocity prev sens b).velocity = b.velocity := by
  unfold calcHandVelocity
  rw [hfind]
  dsimp only
  rw [if_neg hdt]

theorem calculateHandCenter_lmT :
    calculateHandCenter lmT = ⟨0.6, 0.5, 0.2⟩ := by
  unfold calculateHandCenter lmT
  refine Pt3.ext ?_ ?_ ?_
  · show 1 - ((List.replicate 21 ptT).map Pt3.x).sum /
      (List.replicate 21 ptT).length = 0.6
    rw [List.map_replicate, List.sum_replicate, List.length_replicate]
    show 1 - (21 : ℕ) • ptT.x / (21 : ℕ) = 0.6
    rw [nsmul_eq_mul]
    norm_num [ptT]
  · show ((List.replicate 21 ptT).map Pt3.y).sum /
      (List.replicate 21 ptT).length = 0.5
    rw [List.map_replicate, List.sum_replicate, List.length_replicate]
    show (21 : ℕ) • ptT.y / (21 : ℕ) = 0.5
    rw [nsmul_eq_mul]
    norm_num [ptT]
  · show ((List.replicate 21 ptT).getD 0 ⟨0, 0, 0⟩).z = 0.2
    rw [show (21 : ℕ) = 20 + 1 from rfl, List.replicate_succ]
    show ptT.z = 0.2
    rw [ptT]

theorem buildFrameHands_T (t : ℝ) :
    buildFrameHands trackerStateT [rawHandT] t =
      [processHandData rawHandT 0 t] := by
  have hcent : (processHandData rawHandT 0 t).center = ⟨0.6, 0.5, 0.2⟩ := by
    show calculateHandCenter rawHandT.landmarks = _
    exact calculateHandCenter_lmT
  have hf : (if ((0, rawHandT) : ℕ × RawHand).2.score <
        trackerStateT.confidenceThreshold then none
      else
        let hd := processHandData ((0, rawHandT) : ℕ × RawHand).2
          ((0, rawHandT) : ℕ × RawHand).1 t
        if isInMovementZone trackerStateT.settings.movementZone hd then
          some hd
        else none) = some (processHandData rawHandT 0 t) := by
    dsimp only
    rw [if_neg (by norm_num [rawHandT, trackerStateT, initialTrackerState])]
    rw [if_pos (by
      unfold isInMovementZone
      rw [hcent]
      norm_num [trackerStateT, initialTrackerState])]
  unfold buildFrameHands
  rw [show ([rawHandT] : List RawHand).enum = [(0, rawHandT)] from rfl,
    List.filterMap_cons, hf]
  rfl

/-- Running the scenario frame through `processFrame` yields exactly the one
record `outHandT t`. -/
theorem trackerScenario_out (t : ℝ) :
    (processFrame trackerStateT [rawHandT] t).currentHands = [outHandT t] := by
  rw [processFrame_currentHands, buildFrameHands_T]
  rw [if_pos (show trackerStateT.settings.smoothing = true from rfl)]
  rfl

/-- C2: in every processed frame, a hand record `h` whose label matches a
record `p` of the previous frame, with positive elapsed time
`dt = (h.timestamp - p.timestamp) / 1000`, carries velocity components equal
to the per-axis (smoothed) center differences over `dt` scaled by the
sensitivity, and a magnitude equal to the Euclidean norm of the x,y center
differences over `dt` scaled by the sensitivity. -/
theorem velocity_is_scaled_finite_difference (s : TrackerState)
    (raws : List RawHand) (now : ℝ) (h : Hand)
    (hmem : h ∈ (processFrame s raws now).currentHands) (p : Hand)
    (hfind : s.currentHands.find? (fun q => q.label = h.label) = some p)
    (hdt : (h.timestamp - p.timestamp) / 1000 > 0) :
    h.velocity.x = (h.center.x - p.center.x) /
        ((h.timestamp - p.timestamp) / 1000) * s.settings.sensitivity ∧
      h.velocity.y = (h.center.y - p.center.y) /
        ((h.timestamp - p.timestamp) / 1000) * s.settings.sensitivity ∧
      h.velocity.magnitude = Real.sqrt
          ((h.center.x - p.center.x) * (h.center.x - p.center.x) +
            (h.center.y - p.center.y) * (h.center.y - p.center.y)) /
        ((h.timestamp - p.timestamp) / 1000) * s.settings.sensitivity := by
  rw [processFrame_currentHands] at hmem
  obtain ⟨b2, hb2, rfl⟩ := List.mem_map.mp hmem
  obtain ⟨b1, hb1, rfl⟩ := List.mem_map.mp hb2
  rw [detectHandGestures_label, calcHandVelocity_label] at hfind
  rw [detectHandGestures_timestamp, calcHandVelocity_timestamp] at hdt
  have hspec := calcHandVelocity_spec s.currentHands s.settings.sensitivity
    b1 p hfind hdt
  refine ⟨?_, ?_, ?_⟩ <;>
    simp only [detectHandGestures_velocity, detectHandGestures_center,
      detectHandGestures_timestamp, calcHandVelocity_center,
      calcHandVelocity_timestamp, hspec]

/-- Witness for C2: the scenario frame at `t = 1000` (dt = 1 s) produces the
left-hand record with finite-difference velocity against the previous
record. -/
theorem velocity_is_scaled_finite_difference_witness :
    (outHandT 1000).velocity.x =
        ((outHandT 1000).center.x - prevHandT.center.x) /
          (((outHandT 1000).timestamp - prevHandT.timestamp) / 1000) *
          trackerStateT.settings.sensitivity ∧
      (outHandT 1000).velocity.y =
        ((outHandT 1000).center.y - prevHandT.center.y) /
          (((outHandT 1000).timestamp - prevHandT.timestamp) / 1000) *
          trackerStateT.settings.sensitivity ∧
      (outHandT 1000).velocity.magnitude = Real.sqrt
          (((outHandT 1000).center.x - prevHandT.center.x) *
              ((outHandT 1000).center.x - prevHandT.center.x) +
            ((outHandT 1000).center.y - prevHandT.center.y) *
              ((outHandT 1000).center.y - prevHandT.center.y)) /
          (((outHandT 1000).timestamp - prevHandT.timestamp) / 1000) *
          trackerStateT.settings.sensitivity := by
  have hlab : (outHandT 1000).label = "left" := by
    unfold outHandT
    rw [detectHandGestures_label, calcHandVelocity_label, smoothHand_label]
    rfl
  have htime : (outHandT 1000).timestamp = 1000 := by
    unfold outHandT
    rw [detectHandGestures_timestamp, calcHandVelocity_timestamp,
      smoothHand_timestamp]
    rfl
  exact velocity_is_scaled_finite_difference trackerStateT [rawHandT] 1000
    (outHandT 1000)
    (by rw [trackerScenario_out]; exact List.mem_singleton.mpr rfl)
    prevHandT
    (List.find?_cons_of_pos _ (by rw [hlab]; rfl))
    (by rw [htime]; norm_num [prevHandT])

/-- C3 counterexample: it is false that a matched hand record with
non-positive elapsed time keeps the velocity the matched previous-frame
record carried.  In the scenario two consecutive frames share timestamp 0;
the previous record carries velocity x-component 0.06, but the new record's
velocity is the zero value `processHandData` initialized. -/
theorem velocity_not_kept_from_previous_record :
    ¬ ∀ (s : TrackerState) (raws : List RawHand) (now : ℝ) (h : Hand),
        h ∈ (processFrame s raws now).currentHands →
        ∀ p : Hand,
          s.currentHands.find? (fun q => q.label = h.label) = some p →
          (h.timestamp - p.timestamp) / 1000 ≤ 0 →
          h.velocity = p.velocity := by
  intro hclaim
  have hlab : (outHandT 0).label = "left" := by
    unfold outHandT
    rw [detectHandGestures_label, calcHandVelocity_label, smoothHand_label]
    rfl
  have htime : (outHandT 0).timestamp = 0 := by
    unfold outHandT
    rw [detectHandGestures_timestamp, calcHandVelocity_timestamp,
      smoothHand_timestamp]
    rfl
  have hmem : outHandT 0 ∈ (processFrame trackerStateT [rawHandT] 0).currentHands := by
    rw [trackerScenario_out]
    exact List.mem_singleton.mpr rfl
  have heq := hclaim trackerStateT [rawHandT] 0 (outHandT 0) hmem prevHandT
    (List.find?_cons_of_pos _ (by rw [hlab]; rfl))
    (by rw [htime]; norm_num [prevHandT])
  have hsmlab : (smoothHand [prevHandT] 0.7
      (processHandData rawHandT 0 0)).label = "left" := by
    rw [smoothHand_label]
    rfl
  have hsmtime : (smoothHand [prevHandT] 0.7
      (processHandData rawHandT 0 0)).timestamp = 0 := by
    rw [smoothHand_timestamp]
    rfl
  have hzero : (outHandT 0).velocity = ⟨0, 0, 0⟩ := by
    unfold outHandT
    rw [detectHandGestures_velocity,
      calcHandVelocity_nonpos _ _ _ prevHandT
        (List.find?_cons_of_pos _ (by rw [hsmlab]; rfl))
        (by rw [hsmtime]; norm_num [prevHandT]),
      smoothHand_velocity]
    rfl
  rw [hzero] at heq
  have hx := congrArg Velocity.x heq
  norm_num [prevHandT] at hx

/-- C3 amended: a hand record matched by label against the previous frame
whose elapsed time `(h.timestamp - p.timestamp) / 1000` is not positive
keeps the zero velocity `{x: 0, y: 0, magnitude: 0}` that `processHandData`
initialized for the current frame — it is left at that fresh value (not
`undefined`), but it is NOT the matched previous record's velocity. -/
theorem velocity_zero_when_dt_nonpos (s : TrackerState)
    (raws : List RawHand) (now : ℝ) (h : Hand)
    (hmem : h ∈ (processFrame s raws now).currentHands) (p : Hand)
    (hfind : s.currentHands.find? (fun q => q.label = h.label) = some p)
    (hdt : (h.timestamp - p.timestamp) / 1000 ≤ 0) :
    h.velocity = ⟨0, 0, 0⟩ := by
  rw [processFrame_currentHands] at hmem
  obtain ⟨b2, hb2, rfl⟩ := List.mem_map.mp hmem
  obtain ⟨b1, hb1, rfl⟩ := List.mem_map.mp hb2
  rw [detectHandGestures_label, calcHandVelocity_label] at hfind
  rw [detectHandGestures_timestamp, calcHandVelocity_timestamp] at hdt
  rw [detectHandGestures_velocity,
    calcHandVelocity_nonpos _ _ _ p hfind (by linarith)]
  have hb1vel : b1.velocity = ⟨0, 0, 0⟩ := by
    by_cases hsm : s.settings.smoothing = true
    · rw [if_pos hsm] at hb1
      obtain ⟨b0, hb0, rfl⟩ := List.mem_map.mp hb1
      obtain ⟨ir, _, rfl⟩ := mem_buildFrameHands _ _ _ _ hb0
      rw [smoothHand_velocity]
      rfl
    · rw [if_neg hsm] at hb1
      obtain ⟨ir, _, rfl⟩ := mem_buildFrameHands _ _ _ _ hb1
      rfl
  exact hb1vel

/-- Witness for C3 (amended): the scenario frame re-delivered at the same
timestamp 0 yields a record whose velocity is the zero initialization. -/
theorem velocity_zero_when_dt_nonpos_witness :
    (outHandT 0).velocity = ⟨0, 0, 0⟩ := by
  have hlab : (outHandT 0).label = "left" := by
    unfold outHandT
    rw [detectHandGestures_label, calcHandVelocity_label, smoothHand_label]
    rfl
  have htime : (outHandT 0).timestamp = 0 := by
    unfold outHandT
    rw [detectHandGestures_timestamp, calcHandVelocity_timestamp,
      smoothHand_timestamp]
    rfl
  exact velocity_zero_when_dt_nonpos trackerStateT [rawHandT] 0 (outHandT 0)
    (by rw [trackerScenario_out]; exact List.mem_singleton.mpr rfl)
    prevHandT
    (List.find?_cons_of_pos _ (by rw [hlab]; rfl))
    (by rw [htime]; norm_num [prevHandT])

/-- C10: smoothing (and every later stage) touches only the x and y center
components — every hand record a frame produces carries as `center.z` the
raw wrist z-coordinate (landmark 0) of the raw hand it was built from in the
current frame. -/
theorem center_z_is_raw_wrist_z (s : TrackerState) (raws : List RawHand)
    (now : ℝ) (h : Hand)
    (hmem : h ∈ (processFrame s raws now).currentHands) :
    ∃ raw ∈ raws, h.center.z = (raw.landmarks.getD 0 ⟨0, 0, 0⟩).z := by
  rw [processFrame_currentHands] at hmem
  obtain ⟨b2, hb2, rfl⟩ := List.mem_map.mp hmem
  obtain ⟨b1, hb1, rfl⟩ := List.mem_map.mp hb2
  rw [detectHandGestures_center, calcHandVelocity_center]
  by_cases hsm : s.settings.smoothing = true
  · rw [if_pos hsm] at hb1
    obtain ⟨b0, hb0, rfl⟩ := List.mem_map.mp hb1
    obtain ⟨ir, hir, rfl⟩ := mem_buildFrameHands _ _ _ _ hb0
    refine ⟨ir.2, ?_, ?_⟩
    · rw [← List.enum_map_snd raws]
      exact List.mem_map_of_mem Prod.snd hir
    · rw [smoothHand_center_z]
      rfl
  · rw [if_neg hsm] at hb1
    obtain ⟨ir, hir, rfl⟩ := mem_buildFrameHands _ _ _ _ hb1
    refine ⟨ir.2, ?_, ?_⟩
    · rw [← List.enum_map_snd raws]
      exact List.mem_map_of_mem Prod.snd hir
    · rfl

/-- Witness for C10: the scenario frame's record has `center.z = 0.2`, the
wrist z of the raw landmarks, even though x was mirrored and smoothed. -/
theorem center_z_is_raw_wrist_z_witness :
    ∃ raw ∈ [rawHandT],
      (outHandT 1000).center.z = (raw.landmarks.getD 0 ⟨0, 0, 0⟩).z :=
  center_z_is_raw_wrist_z trackerStateT [rawHandT] 1000 (outHandT 1000)
    (by rw [trackerScenario_out]; exact List.mem_singleton.mpr rfl)

/-! ## C1 — ten coordinated frames yield exactly one bilateral achievement -/

theorem bc_step_good_progress (c : ℕ) (f : List Hand) (hf : goodBCFrame f)
    (hc : c + 1 < 10) :
    bcProcessHands (mkBC c) f = (mkBC (c + 1), bcProgressResult) := by
  obtain ⟨hlen, l, r, hl, hr, hdist⟩ := hf
  unfold bcProcessHands
  rw [if_neg (by rw [hlen]; exact fun h => h rfl)]
  rw [hl, hr]
  have htar : (mkBC c).targetDistance = 0.3 := rfl
  have htol : (mkBC c).tolerance = 0.1 := rfl
  rw [htar, htol]
  dsimp only
  rw [if_pos hdist]
  have hreq : ¬((mkBC c).successCount + 1 ≥ (mkBC c).requiredSuccess) := by
    simp only [mkBC, initBCState]
    omega
  rw [if_neg hreq]
  rfl

theorem bc_step_good_fire (f : List Hand) (hf : goodBCFrame f) :
    bcProcessHands (mkBC 9) f = (mkBC 0, bcAchievementResult) := by
  obtain ⟨hlen, l, r, hl, hr, hdist⟩ := hf
  unfold bcProcessHands
  rw [if_neg (by rw [hlen]; exact fun h => h rfl)]
  rw [hl, hr]
  have htar : (mkBC 9).targetDistance = 0.3 := rfl
  have htol : (mkBC 9).tolerance = 0.1 := rfl
  rw [htar, htol]
  dsimp only
  rw [if_pos hdist]
  have hreq : (mkBC 9).successCount + 1 ≥ (mkBC 9).requiredSuccess := by
    simp only [mkBC, initBCState]
    omega
  rw [if_pos hreq]
  rfl

theorem runBC_append (st : BCState) (xs ys : List (List Hand)) :
    runBC st (xs ++ ys) =
      ((runBC (runBC st xs).1 ys).1,
        (runBC st xs).2 ++ (runBC (runBC st xs).1 ys).2) := by
  induction xs generalizing st with
  | nil => simp [runBC]
  | cons f fs ih =>
      have hl : runBC st ((f :: fs) ++ ys) =
          ((runBC (bcProcessHands st f).1 (fs ++ ys)).1,
            (bcProcessHands st f).2 ::
              (runBC (bcProcessHands st f).1 (fs ++ ys)).2) := rfl
      have hr : runBC st (f :: fs) =
          ((runBC (bcProcessHands st f).1 fs).1,
            (bcProcessHands st f).2 ::
              (runBC (bcProcessHands st f).1 fs).2) := rfl
      rw [hl, hr, ih]
      simp

theorem runBC_all_progress (frames : List (List Hand)) (c : ℕ)
    (hgood : ∀ f ∈ frames, goodBCFrame f) (hc : c + frames.length ≤ 9) :
    runBC (mkBC c) frames =
      (mkBC (c + frames.length), frames.map fun _ => bcProgressResult) := by
  induction frames generalizing c with
  | nil => simp [runBC]
  | cons f fs ih =>
      have hstep := bc_step_good_progress c f (hgood f (by simp))
        (by simp only [List.length_cons] at hc; omega)
      have hcons : runBC (mkBC c) (f :: fs) =
          ((runBC (bcProcessHands (mkBC c) f).1 fs).1,
            (bcProcessHands (mkBC c) f).2 ::
              (runBC (bcProcessHands (mkBC c) f).1 fs).2) := rfl
      rw [hcons, hstep]
      dsimp only
      rw [ih (c + 1) (fun g hg => hgood g (by simp [hg]))
        (by simp only [List.length_cons] at hc; omega)]
      simp only [List.map_cons, List.length_cons]
      rw [show c + 1 + fs.length = c + (fs.length + 1) from by omega]

/-- C1: with the bilateral-coordination activity at its constructor state
(success count 0, target distance 0.3, tolerance 0.1, required count 10),
feeding 10 consecutive frames that each contain exactly two hands labelled
`'left'` and `'right'` at center distance within tolerance of the target
returns progress-only results (`progress.bilateral = 0.1`, no achievement)
on the first 9 frames, exactly one achievement — of type `"bilateral"` — on
the 10th, and leaves the success counter reset to 0. -/
theorem bilateral_coordination_ten_frames (frames : List (List Hand))
    (hlen : frames.length = 10) (hgood : ∀ f ∈ frames, goodBCFrame f) :
    runBC initBCState frames =
      (initBCState,
        List.replicate 9 bcProgressResult ++ [bcAchievementResult]) := by
  have hne : frames ≠ [] := by
    intro h
    rw [h] at hlen
    simp at hlen
  have hsplit := List.dropLast_append_getLast hne
  have hlen9 : frames.dropLast.length = 9 := by
    rw [List.length_dropLast, hlen]
  have hga : ∀ f ∈ frames.dropLast, goodBCFrame f := fun f hf =>
    hgood f (List.dropLast_subset frames hf)
  have hgz : goodBCFrame (frames.getLast hne) :=
    hgood _ (List.getLast_mem hne)
  have hinit : initBCState = mkBC 0 := rfl
  have h1 : runBC (mkBC 0) frames.dropLast =
      (mkBC 9, frames.dropLast.map fun _ => bcProgressResult) := by
    have h0 := runBC_all_progress frames.dropLast 0 hga (by omega)
    rw [hlen9] at h0
    simpa using h0
  have h2 : runBC (mkBC 9) [frames.getLast hne] =
      (mkBC 0, [bcAchievementResult]) := by
    have hcons : runBC (mkBC 9) [frames.getLast hne] =
        ((runBC (bcProcessHands (mkBC 9) (frames.getLast hne)).1 []).1,
          (bcProcessHands (mkBC 9) (frames.getLast hne)).2 ::
            (runBC (bcProcessHands (mkBC 9) (frames.getLast hne)).1 []).2) :=
      rfl
    rw [hcons, bc_step_good_fire _ hgz]
    rfl
  rw [hinit, ← hsplit, runBC_append, h1, h2]
  refine Prod.ext rfl ?_
  show frames.dropLast.map _ ++ _ = _
  congr 1
  rw [List.map_const', hlen9]

/-- Witness for C1: ten identical frames holding a left hand at
`(0.2, 0.5)` and a right hand at `(0.5, 0.5)` (distance exactly 0.3). -/
theorem bilateral_coordination_ten_frames_witness :
    (List.replicate 10 pairC1).length = 10 ∧
      runBC initBCState (List.replicate 10 pairC1) =
        (initBCState,
          List.replicate 9 bcProgressResult ++ [bcAchievementResult]) := by
  have hgood : goodBCFrame pairC1 := by
    refine ⟨rfl, lHandC1, rHandC1, ?_, ?_, ?_⟩
    · simp [pairC1, List.find?, lHandC1]
    · simp [pairC1, List.find?, lHandC1, rHandC1]
    · have harg : (lHandC1.center.x - rHandC1.center.x) ^ 2 +
          (lHandC1.center.y - rHandC1.center.y) ^ 2 = (0.3 : ℝ) ^ 2 := by
        norm_num [lHandC1, rHandC1]
      rw [harg, Real.sqrt_sq (by norm_num : (0 : ℝ) ≤ 0.3)]
      norm_num
  exact ⟨by simp,
    bilateral_coordination_ten_frames (List.replicate 10 pairC1) (by simp)
      (fun f hf => by rw [List.eq_of_mem_replicate hf]; exact hgood)⟩

/-! ## C5 — the volume bound -/

theorem list_sum_nonneg (l : List ℝ) (h : ∀ x ∈ l, 0 ≤ x) : 0 ≤ l.sum := by
  induction l with
  | nil => simp
  | cons a t ih =>
      rw [List.sum_cons]
      have ha := h a (by simp)
      have ht := ih fun x hx => h x (by simp [hx])
      linarith

theorem list_sum_le_length_mul (l : List ℝ) (b : ℝ)
    (h : ∀ x ∈ l, x ≤ b) : l.sum ≤ l.length * b := by
  induction l with
  | nil => simp
  | cons a t ih =>
      rw [List.sum_cons, List.length_cons]
      have ha := h a (by simp)
      have ht := ih fun x hx => h x (by simp [hx])
      push_cast
      linarith

/-- C5 counterexample: the tick volume is not confined to `[0, 1]` for every
legal sensitivity — with both frequency bins at full scale (RMS 1) and
sensitivity 2.0 the produced volume is 2. -/
theorem analyzeVolume_exceeds_one :
    (analyzeVolume [255, 255] 2 false []).1 = 2 ∧
      ¬(analyzeVolume [255, 255] 2 false []).1 ≤ 1 := by
  have h : (analyzeVolume [255, 255] 2 false []).1 = 2 := by
    simp only [analyzeVolume, Bool.false_eq_true, if_false]
    have harg : ((([255, 255] : List ℕ).map fun d : ℕ => (d : ℝ) * (d : ℝ)).sum) /
        (([255, 255] : List ℕ).length : ℕ) = (255 : ℝ) ^ 2 := by
      norm_num [List.sum_cons]
    rw [harg, Real.sqrt_sq (by norm_num : (0 : ℝ) ≤ 255)]
    norm_num
  exact ⟨h, by rw [h]; norm_num⟩

/-- C5 amended: for a nonempty byte array and a legal sensitivity in
`[0.1, 2.0]`, the produced volume lies in `[0, 2]` — more precisely the raw
tick volume is RMS (≤ 1) times sensitivity, so the spec's `[0, 1]` bound only
holds when sensitivity ≤ 1; with smoothing, the rolling mean stays in `[0, 2]`
provided the history entries (earlier tick volumes) do too. -/
theorem analyzeVolume_bounded (freq : List ℕ) (sens : ℝ) (sm : Bool)
    (hist : List ℝ) (hne : freq ≠ []) (hb : ∀ d ∈ freq, d ≤ 255)
    (hs1 : 0.1 ≤ sens) (hs2 : sens ≤ 2)
    (hh : ∀ v ∈ hist, 0 ≤ v ∧ v ≤ 2) :
    0 ≤ (analyzeVolume freq sens sm hist).1 ∧
      (analyzeVolume freq sens sm hist).1 ≤ 2 := by
  have hs0 : (0 : ℝ) ≤ sens := by linarith
  have hn : 0 < (freq.length : ℝ) := by
    exact_mod_cast List.length_pos.mpr hne
  have hsum0 : 0 ≤ ((freq.map fun d : ℕ => (d : ℝ) * (d : ℝ)).sum) :=
    list_sum_nonneg _ fun x hx => by
      obtain ⟨d, _, rfl⟩ := List.mem_map.mp hx
      positivity
  have hsumle : ((freq.map fun d : ℕ => (d : ℝ) * (d : ℝ)).sum) ≤
      (freq.map fun d : ℕ => (d : ℝ) * (d : ℝ)).length * (255 * 255) := by
    refine list_sum_le_length_mul _ _ fun x hx => ?_
    obtain ⟨d, hd, rfl⟩ := List.mem_map.mp hx
    have h255 : (d : ℝ) ≤ 255 := by exact_mod_cast hb d hd
    have h0 : (0 : ℝ) ≤ (d : ℝ) := by positivity
    nlinarith
  have hdivle : ((freq.map fun d : ℕ => (d : ℝ) * (d : ℝ)).sum) / freq.length ≤
      255 * 255 := by
    rw [div_le_iff₀ hn]
    simpa [List.length_map, mul_comm] using hsumle
  have hdiv0 : 0 ≤ ((freq.map fun d : ℕ => (d : ℝ) * (d : ℝ)).sum) / freq.length :=
    div_nonneg hsum0 (le_of_lt hn)
  have hsqrt : Real.sqrt (((freq.map fun d : ℕ => (d : ℝ) * (d : ℝ)).sum) /
      freq.length) ≤ 255 := by
    have : ((255 : ℝ)) = Real.sqrt (255 ^ 2) :=
      (Real.sqrt_sq (by norm_num : (0 : ℝ) ≤ 255)).symm
    rw [this]
    exact Real.sqrt_le_sqrt (by nlinarith)
  have hrms0 : 0 ≤ Real.sqrt (((freq.map fun d : ℕ => (d : ℝ) * (d : ℝ)).sum) /
      freq.length) / 255 := by positivity
  have hrms1 : Real.sqrt (((freq.map fun d : ℕ => (d : ℝ) * (d : ℝ)).sum) /
      freq.length) / 255 ≤ 1 := by
    rw [div_le_one (by norm_num : (0 : ℝ) < 255)]
    exact hsqrt
  have hvol0 : 0 ≤ Real.sqrt (((freq.map fun d : ℕ => (d : ℝ) * (d : ℝ)).sum) /
      freq.length) / 255 * sens := mul_nonneg hrms0 hs0
  have hvol2 : Real.sqrt (((freq.map fun d : ℕ => (d : ℝ) * (d : ℝ)).sum) /
      freq.length) / 255 * sens ≤ 2 := by
    calc Real.sqrt (((freq.map fun d : ℕ => (d : ℝ) * (d : ℝ)).sum) /
          freq.length) / 255 * sens
        ≤ 1 * 2 := mul_le_mul hrms1 hs2 hs0 (by norm_num)
      _ = 2 := by norm_num
  cases sm with
  | false =>
      simp only [analyzeVolume, Bool.false_eq_true, if_false]
      exact ⟨hvol0, hvol2⟩
  | true =>
      simp only [analyzeVolume, if_true]
      set vol := Real.sqrt (((freq.map fun d : ℕ => (d : ℝ) * (d : ℝ)).sum) /
        freq.length) / 255 * sens with hvoldef
      have hmem : ∀ v ∈ (if (hist ++ [vol]).length > 10 then
          (hist ++ [vol]).tail else hist ++ [vol]), 0 ≤ v ∧ v ≤ 2 := by
        intro v hv
        have hv' : v ∈ hist ++ [vol] := by
          by_cases hc : (hist ++ [vol]).length > 10
          · rw [if_pos hc] at hv
            exact List.tail_subset _ hv
          · rwa [if_neg hc] at hv
        rcases List.mem_append.mp hv' with h | h
        · exact hh v h
        · have : v = vol := by simpa using h
          rw [this]
          exact ⟨hvol0, hvol2⟩
      have hlen : 0 < (if (hist ++ [vol]).length > 10 then
          (hist ++ [vol]).tail else hist ++ [vol]).length := by
        by_cases hc : (hist ++ [vol]).length > 10
        · rw [if_pos hc, List.length_tail]
          omega
        · rw [if_neg hc]
          simp
      set l := (if (hist ++ [vol]).length > 10 then
        (hist ++ [vol]).tail else hist ++ [vol]) with hldef
      have hlenr : 0 < (l.length : ℝ) := by exact_mod_cast hlen
      constructor
      · exact div_nonneg (list_sum_nonneg _ fun x hx => (hmem x hx).1)
          (le_of_lt hlenr)
      · rw [div_le_iff₀ hlenr]
        calc l.sum ≤ l.length * 2 :=
              list_sum_le_length_mul _ _ fun x hx => (hmem x hx).2
          _ = 2 * l.length := by ring

/-- Witness for C5 (amended): a half-scale single-bin tick at sensitivity 2
with an empty history and smoothing on produces a volume inside `[0, 2]`. -/
theorem analyzeVolume_bounded_witness :
    ([128] : List ℕ) ≠ [] ∧
      (0 ≤ (analyzeVolume [128] 2 true []).1 ∧
        (analyzeVolume [128] 2 true []).1 ≤ 2) :=
  ⟨by decide,
    analyzeVolume_bounded [128] 2 true [] (by decide) (by decide)
      (by norm_num) (by norm_num) (by simp)⟩

end Manine
